import Mathlib

/-!
Verification of the PytoWeb virtual-DOM / component framework.

This file shallowly embeds the parts of the repository that the statements
below are about:

* `pytoweb/vdom.py`   — `VNode`, `VDOMDiffer` (diff, `_diff_props`,
  `_diff_children` via `difflib.SequenceMatcher`), `VDOMRenderer`
  (`create_element`, `_props_to_string`, `render_to_string`);
* `pytoweb/components.py` — `ComponentCache` (`get`, `set`) and the
  `Component` lifecycle (`mount`, `unmount`, `_update`);
* `pytoweb/events.py` — `EventDelegate.__call__`.

Conventions used throughout:

* Python prop values are restricted to the universe `PVal`
  (None / bool / str), which is the universe exercised by the properties
  proved here; the `style`-dict and `class`-list branches of
  `_props_to_string` are vacuous on this universe and the corresponding
  Python branches are therefore not reproduced.
* Python `float` timestamps (`time.time()`) are modelled as `ℚ`, and the
  ambient clock is passed explicitly to the cache operations.
* `sys.getsizeof` is modelled as an explicit size function `sz` passed to
  the cache operations.
* Exceptions are modelled with `Except String`; the string is the
  exception message.
* `VDOMRenderer._get_pooled_string` returns a string equal to its
  argument (the pool only affects identity, not value), so it is the
  identity in this embedding.
-/

/-- Prop values: the universe of Python values carried by `VNode.props`
in this embedding (`None`, booleans, strings). -/
inductive PVal where
  | null : PVal
  | bool (b : Bool) : PVal
  | str (s : String) : PVal
deriving DecidableEq, Repr

instance : BEq PVal := instBEqOfDecidableEq

/- `VNode` from `pytoweb/vdom.py` together with the universe of child
values: a child of a `VNode` is either another `VNode` or a plain string
(the renderer and differ both branch on `isinstance(child, VNode)`).
Python dicts are insertion-ordered, so `props` is an association list in
insertion order (a genuine dict never has two entries with the same key;
see `keysNodup`). -/
mutual
inductive VNode where
  | mk (tag : String) (props : List (String × PVal)) (children : List Child)
deriving Repr
inductive Child where
  | node (v : VNode)
  | text (s : String)
deriving Repr
end

def VNode.tag : VNode → String
  | .mk t _ _ => t

def VNode.props : VNode → List (String × PVal)
  | .mk _ p _ => p

def VNode.children : VNode → List Child
  | .mk _ _ c => c

/-- Python `dict.__eq__`: two dicts are equal when they bind the same keys
to equal values (iteration order is irrelevant for `==`). -/
def dictBEq (a b : List (String × PVal)) : Bool :=
  a.all (fun p => b.lookup p.1 == some p.2) &&
  b.all (fun p => a.lookup p.1 == some p.2)

/-- A well-formed props list has pairwise distinct keys, as every Python
dict does. -/
def keysNodup : List (String × PVal) → Bool
  | [] => true
  | (k, _) :: rest => (rest.lookup k).isNone && keysNodup rest

/- `VNode.__eq__` (vdom.py lines 13-18): tag, props and children must all
be equal; comparison with a non-`VNode` (a string child) is `False`, and
list equality is length + elementwise equality, exactly as in Python. -/
mutual
def vnodeBEq : VNode → VNode → Bool
  | .mk t1 p1 c1, .mk t2 p2 c2 =>
    t1 == t2 && dictBEq p1 p2 && childListBEq c1 c2
def childBEq : Child → Child → Bool
  | .node a, .node b => vnodeBEq a b
  | .text a, .text b => a == b
  | .node _, .text _ => false
  | .text _, .node _ => false
def childListBEq : List Child → List Child → Bool
  | [], [] => true
  | a :: as, b :: bs => childBEq a b && childListBEq as bs
  | [], _ :: _ => false
  | _ :: _, [] => false
end

instance : BEq VNode := ⟨vnodeBEq⟩
instance : BEq Child := ⟨childBEq⟩

/- Well-formedness of a tree: every props dict in it has distinct keys
(true of every tree a Python program can build). -/
mutual
def VNode.wf : VNode → Bool
  | .mk _ props children => keysNodup props && childListWf children
def Child.wf : Child → Bool
  | .node v => v.wf
  | .text _ => true
def childListWf : List Child → Bool
  | [] => true
  | c :: cs => c.wf && childListWf cs
end

/-- The patch records produced by `VDOMDiffer` (the `'type'` field of the
Python dicts becomes the constructor). In a `props` patch the dict maps a
key either to its new value or to the removal sentinel `None`
(= `PVal.null`). -/
inductive Patch where
  | create (node : Option VNode)
  | remove
  | replace (node : VNode)
  | props (patch : List (String × PVal))
  | replaceChild (index : Nat) (node : Option Child)
  | removeChild (index : Nat)
  | insertChild (index : Nat) (node : Child)
deriving Repr

/-- `VDOMDiffer._diff_props` (vdom.py lines 61-76): first every key of the
new dict whose value is new or changed (bound to its new value), then
every key of the old dict absent from the new one (bound to `None`).
The patch is built in this iteration order; `none` is returned when it is
empty. -/
def diffPropsPatch (old new : List (String × PVal)) : List (String × PVal) :=
  new.filter (fun p =>
    match old.lookup p.1 with
    | none => true
    | some ov => !(ov == p.2)) ++
  (old.filter (fun p => (new.lookup p.1).isNone)).map (fun p => (p.1, PVal.null))

def diffProps (old new : List (String × PVal)) : Option (List (String × PVal)) :=
  let patch := diffPropsPatch old new
  if patch.isEmpty then none else some patch

def childIsVNode : Child → Bool
  | .node _ => true
  | .text _ => false

def childListHasVNode (cs : List Child) : Bool := cs.any childIsVNode

/-!
`difflib.SequenceMatcher(None, old_children, new_children)` as used by
`VDOMDiffer._diff_children` (vdom.py lines 78-107).  The matcher is
modelled for sequences shorter than 200 elements (below that length the
`autojunk` heuristic of CPython's difflib does nothing, and no explicit
junk is supplied).  `b2j` is the dict from element value to the ascending
list of its indices in `b`; building it hashes every element of `b`, and
`find_longest_match` hashes every element of `a` in its range, so a
`VNode` element (whose class defines `__eq__` but no `__hash__` and is
therefore unhashable) raises `TypeError` — see `diffChildren`.
-/

/-- `b2j.get(x, [])`: the ascending indices of elements of `b` equal to
`x` (dict lookup by hash resolves to equality of values). -/
def b2jGet (b : List Child) (x : Child) : List Nat :=
  (b.enum.filter (fun p => childBEq p.2 x)).map Prod.fst

/-- Inner loop of `find_longest_match` over the candidate `j` indices for
a fixed `i` (newest-row dictionary `newj2len` is accumulated; `continue`
on `j < blo`, `break` on `j >= bhi`).  In Python `j2len.get(j-1, 0)` with
`j = 0` looks up the key `-1`, which is never present, hence the guard. -/
def flmInner (blo bhi i : Nat) (j2len : List (Nat × Nat)) :
    List Nat → List (Nat × Nat) → Nat → Nat → Nat → (List (Nat × Nat) × Nat × Nat × Nat)
  | [], newj2len, besti, bestj, bestsize => (newj2len, besti, bestj, bestsize)
  | j :: js, newj2len, besti, bestj, bestsize =>
    if j < blo then flmInner blo bhi i j2len js newj2len besti bestj bestsize
    else if bhi ≤ j then (newj2len, besti, bestj, bestsize)
    else
      let k := (if j = 0 then 0 else (j2len.lookup (j - 1)).getD 0) + 1
      let newj2len := (j, k) :: newj2len
      if bestsize < k then
        -- Python's `i-k+1` / `j-k+1`, written `i+1-k` so that ℕ subtraction
        -- cannot truncate (`k ≤ i+1` and `k ≤ j+1` always hold here).
        flmInner blo bhi i j2len js newj2len (i + 1 - k) (j + 1 - k) k
      else
        flmInner blo bhi i j2len js newj2len besti bestj bestsize

/-- Outer loop of `find_longest_match` over `i` in `range(alo, ahi)`. -/
def flmOuter (a b : List Child) (blo bhi : Nat) :
    List Nat → List (Nat × Nat) → Nat → Nat → Nat → (Nat × Nat × Nat)
  | [], _, besti, bestj, bestsize => (besti, bestj, bestsize)
  | i :: is, j2len, besti, bestj, bestsize =>
    let js := b2jGet b (a.getD i (.text ""))
    let (newj2len, besti, bestj, bestsize) :=
      flmInner blo bhi i j2len js [] besti bestj bestsize
    flmOuter a b blo bhi is newj2len besti bestj bestsize

/-- Extension of the best match downwards (`while besti > alo and
bestj > blo and a[besti-1] == b[bestj-1]`); with no junk the two
junk-extension loops of CPython are no-ops. -/
def flmExtendLo (a b : List Child) (alo blo : Nat) (besti bestj bestsize : Nat) :
    Nat × Nat × Nat :=
  if h : alo < besti ∧ blo < bestj ∧
      childBEq (a.getD (besti - 1) (.text "")) (b.getD (bestj - 1) (.text "")) then
    flmExtendLo a b alo blo (besti - 1) (bestj - 1) (bestsize + 1)
  else (besti, bestj, bestsize)
termination_by besti
decreasing_by
  have := h.1
  omega

/-- Extension of the best match upwards (`while besti+bestsize < ahi and
bestj+bestsize < bhi and a[besti+bestsize] == b[bestj+bestsize]`). -/
def flmExtendHi (a b : List Child) (ahi bhi : Nat) (besti bestj bestsize : Nat) : Nat :=
  if h : besti + bestsize < ahi ∧ bestj + bestsize < bhi ∧
      childBEq (a.getD (besti + bestsize) (.text "")) (b.getD (bestj + bestsize) (.text "")) then
    flmExtendHi a b ahi bhi besti bestj (bestsize + 1)
  else bestsize
termination_by ahi - (besti + bestsize)
decreasing_by
  have := h.1
  omega

/-- `SequenceMatcher.find_longest_match(alo, ahi, blo, bhi)` (no junk). -/
def findLongestMatch (a b : List Child) (alo ahi blo bhi : Nat) : Nat × Nat × Nat :=
  let (besti, bestj, bestsize) :=
    flmOuter a b blo bhi (List.range' alo (ahi - alo)) [] alo blo 0
  let (besti, bestj, bestsize) := flmExtendLo a b alo blo besti bestj bestsize
  let bestsize := flmExtendHi a b ahi bhi besti bestj bestsize
  (besti, bestj, bestsize)

/-- Recursive block collection of `get_matching_blocks`.  CPython drains a
work queue and sorts the collected blocks afterwards; because the blocks
found in the left range all precede the pivot block, which precedes the
blocks of the right range, recursing left/right and appending produces the
same sorted list.  `fuel` only bounds the recursion depth: each recursive
call strictly shrinks `(ahi - alo) + (bhi - blo)`, so any initial fuel of
at least `ahi + bhi + 1` is enough and the `fuel = 0` branch is never
reached from `matchingBlocks`. -/
def matchingBlocksAux (a b : List Child) :
    Nat → Nat → Nat → Nat → Nat → List (Nat × Nat × Nat)
  | 0, _, _, _, _ => []
  | fuel + 1, alo, ahi, blo, bhi =>
    let (i, j, k) := findLongestMatch a b alo ahi blo bhi
    if k = 0 then []
    else
      (if alo < i ∧ blo < j then matchingBlocksAux a b fuel alo i blo j else []) ++
      [(i, j, k)] ++
      (if i + k < ahi ∧ j + k < bhi then matchingBlocksAux a b fuel (i + k) ahi (j + k) bhi
       else [])

/-- Adjacent-block merging at the end of `get_matching_blocks`, followed
by the `(la, lb, 0)` sentinel. -/
def mergeBlocksGo (la lb : Nat) (i1 j1 k1 : Nat) :
    List (Nat × Nat × Nat) → List (Nat × Nat × Nat)
  | [] => if k1 ≠ 0 then [(i1, j1, k1), (la, lb, 0)] else [(la, lb, 0)]
  | (i2, j2, k2) :: rest =>
    if i1 + k1 = i2 ∧ j1 + k1 = j2 then mergeBlocksGo la lb i1 j1 (k1 + k2) rest
    else if k1 ≠ 0 then (i1, j1, k1) :: mergeBlocksGo la lb i2 j2 k2 rest
    else mergeBlocksGo la lb i2 j2 k2 rest

/-- `SequenceMatcher.get_matching_blocks()`. -/
def matchingBlocks (a b : List Child) : List (Nat × Nat × Nat) :=
  let la := a.length
  let lb := b.length
  mergeBlocksGo la lb 0 0 0 (matchingBlocksAux a b (la + lb + 1) 0 la 0 lb)

/-- `SequenceMatcher.get_opcodes()`: walk the matching blocks emitting
`replace` / `delete` / `insert` gaps and `equal` runs. -/
def opcodesGo (i j : Nat) :
    List (Nat × Nat × Nat) → List (String × Nat × Nat × Nat × Nat)
  | [] => []
  | (ai, bj, size) :: rest =>
    (if i < ai ∧ j < bj then [("replace", i, ai, j, bj)]
     else if i < ai then [("delete", i, ai, j, bj)]
     else if j < bj then [("insert", i, ai, j, bj)]
     else []) ++
    (if size ≠ 0 then [("equal", ai, ai + size, bj, bj + size)] else []) ++
    opcodesGo (ai + size) (bj + size) rest

def getOpcodes (a b : List Child) : List (String × Nat × Nat × Nat × Nat) :=
  opcodesGo 0 0 (matchingBlocks a b)

/-- `VDOMDiffer._diff_children` (vdom.py lines 78-107).  Constructing the
`SequenceMatcher` hashes every element of `new_children` (the `b2j`
dict), and `find_longest_match` hashes the elements of `old_children`;
since `VNode` defines `__eq__` without `__hash__` it is unhashable, so any
`VNode` child raises `TypeError` out of `_diff_children`.  On all-string
children the opcodes are translated to child patches; the indexing
`new_children[j]` is in bounds whenever difflib emits the opcode, so the
`getD` default is never used. -/
def diffChildren (oldChildren newChildren : List Child) : Except String (List Patch) :=
  if childListHasVNode oldChildren || childListHasVNode newChildren then
    .error "unhashable type: VNode"
  else
    .ok ((getOpcodes oldChildren newChildren).flatMap fun op =>
      match op with
      | (tag, i1, i2, j1, j2) =>
        if tag == "replace" then
          (List.range' i1 (i2 - i1)).map fun i =>
            Patch.replaceChild i
              (if i - i1 < j2 - j1 then newChildren[j1 + (i - i1)]? else none)
        else if tag == "delete" then
          (List.range' i1 (i2 - i1)).map fun i => Patch.removeChild i
        else if tag == "insert" then
          (List.range' j1 (j2 - j1)).map fun j =>
            Patch.insertChild j (newChildren.getD j (.text ""))
        else [])

/-!
`VDOMRenderer` (vdom.py lines 109-201).  `_get_pooled_string` always
returns a string equal to its argument, so it is dropped.  The prop-value
universe is `PVal` (None / bool / str); on it the `style`-dict and
`class`-list branches of `_props_to_string` are vacuous.
-/

/-- Python `value.replace('"', "&quot;")`: the pattern is the single
character `"`, so replacing it occurrence by occurrence is a character
map. -/
def escapeQuotes (s : String) : String :=
  s.data.foldl (fun acc ch => acc ++ (if ch = '"' then "&quot;" else String.singleton ch)) ""

/-- Python `key.startswith('on')`. -/
def startsWithOn (k : String) : Bool :=
  match k.data with
  | 'o' :: 'n' :: _ => true
  | _ => false

/-- Python `' '.join(xs)`. -/
def joinSpace : List String → String
  | [] => ""
  | [a] => a
  | a :: rest => a ++ " " ++ joinSpace rest

/-- One attribute of `VDOMRenderer._props_to_string` (vdom.py lines
155-181): `None` and `False` values are skipped, `True` renders the bare
key, an `on…` key replaces the value by the JavaScript bridge call, and
otherwise `key="value"` is emitted with `"` escaped as `&quot;`. -/
def propToAttr (k : String) : PVal → Option String
  | .null => none
  | .bool false => none
  | .bool true => some k
  | .str s =>
    let v := if startsWithOn k then "pytoWeb.handleEvent(\x27" ++ k ++ "\x27, this)" else s
    some (k ++ "=\"" ++ escapeQuotes v ++ "\"")

/-- `VDOMRenderer._props_to_string`: `' ' + ' '.join(attributes)` when any
attribute survives, else the empty string. -/
def propsToString (props : List (String × PVal)) : String :=
  let attributes := props.filterMap (fun p => propToAttr p.1 p.2)
  if attributes.isEmpty then "" else " " ++ joinSpace attributes

/-- The fixed void-element set of `VDOMRenderer.create_element`
(vdom.py lines 127-130). -/
def voidElements : List String :=
  ["area", "base", "br", "col", "embed", "hr", "img", "input",
   "link", "meta", "param", "source", "track", "wbr"]

/- `VDOMRenderer.create_element` (vdom.py lines 122-153): a string child
renders as itself; a `VNode` opens `<tag`, appends the props string, and
either closes with `/>` (void elements — children never rendered) or with
`>` + rendered children + `</tag>`. -/
mutual
def createElement : Child → String
  | .text s => s
  | .node (.mk tag props children) =>
    let opening := "<" ++ tag ++ propsToString props
    if voidElements.contains tag then
      opening ++ "/>"
    else
      opening ++ ">" ++ createChildren children ++ "</" ++ tag ++ ">"
def createChildren : List Child → String
  | [] => ""
  | c :: cs => createElement c ++ createChildren cs
end

/-- The inputs accepted by `VDOMRenderer.render_to_string` (vdom.py lines
183-201): strings and `VNode`s (as `Child`), Python ints, objects with a
`render` method (components — modelled by the outcome of calling
`render()`: either a raised exception message or the returned node), and
lists of such inputs. -/
inductive RNode where
  | child (c : Child)
  | num (n : Int)
  | comp (result : Except String RNode)
  | many (items : List RNode)

/- `VDOMRenderer.render_to_string`: the whole body sits in a
`try`/`except` that re-raises any exception `e` as
`Exception(f"Failed to render node: {e}")`; the recursive calls for a
component's rendered output and for list elements sit inside the `try`,
so an error coming out of a nested call is wrapped again at each enclosing
frame.  String, int and `VNode` inputs cannot raise in this model
(`create_element` is total). -/
mutual
def renderToString : RNode → Except String String
  | .child c => .ok (createElement c)
  | .num n => .ok (toString n)
  | .comp result =>
    match result with
    | .error e => .error ("Failed to render node: " ++ e)
    | .ok rendered =>
      match renderToString rendered with
      | .ok s => .ok s
      | .error e => .error ("Failed to render node: " ++ e)
  | .many items =>
    match renderList items with
    | .ok s => .ok s
    | .error e => .error ("Failed to render node: " ++ e)
def renderList : List RNode → Except String String
  | [] => .ok ""
  | x :: xs =>
    match renderToString x with
    | .error e => .error e
    | .ok s =>
      match renderList xs with
      | .error e => .error e
      | .ok rest => .ok (s ++ rest)
end

/-- `VDOMDiffer.diff` (vdom.py lines 24-59). -/
def diff : Option VNode → Option VNode → Except String (List Patch)
  | none, newNode => .ok [Patch.create newNode]
  | some _, none => .ok [Patch.remove]
  | some oldNode, some newNode =>
    if vnodeBEq oldNode newNode then .ok []
    else if !(oldNode.tag == newNode.tag) then .ok [Patch.replace newNode]
    else
      let propsPatches := match diffProps oldNode.props newNode.props with
        | some p => [Patch.props p]
        | none => []
      match diffChildren oldNode.children newNode.children with
      | .error e => .error e
      | .ok childrenPatches => .ok (propsPatches ++ childrenPatches)

/-!
`ComponentCache` (components.py lines 43-129).  The `OrderedDict` is an
association list `key ↦ (value, timestamp)` in recency order (front =
least recently used); cached values are strings (rendered output), the
clock (`time.time()`) is an explicit `ℚ` argument, and `sys.getsizeof` is
an explicit size function `sz`.
-/

structure ComponentCache where
  cache : List (String × String × ℚ)
  maxSize : Nat
  maxMemory : Int
  ttl : ℚ
  currentMemory : Int
deriving Repr

/-- `OrderedDict.pop(key)` on a dict with distinct keys: the removed
value (if any) and the remaining entries. -/
def popKey (key : String) : List (String × String × ℚ) →
    Option (String × ℚ) × List (String × String × ℚ)
  | [] => (none, [])
  | (k, v, ts) :: rest =>
    if k == key then (some (v, ts), rest)
    else
      let (found, rest') := popKey key rest
      (found, (k, v, ts) :: rest')

/-- `ComponentCache.get` (components.py lines 62-81): a miss returns
`None`; an entry older than `ttl` is popped (and its size refunded) and
treated as a miss; a hit is moved to the end **and its timestamp is
overwritten with the current time** (`self._cache[key] = (value,
current_time)`). -/
def ComponentCache.get (sz : String → Int) (now : ℚ) (key : String)
    (c : ComponentCache) : Option String × ComponentCache :=
  match popKey key c.cache with
  | (none, _) => (none, c)
  | (some (value, timestamp), rest) =>
    if now - timestamp > c.ttl then
      (none, { c with cache := rest, currentMemory := c.currentMemory - sz value })
    else
      -- move_to_end + in-place timestamp refresh = re-append at the back
      (some value, { c with cache := rest ++ [(key, value, now)] })

/-- The eviction loop of `ComponentCache.set` (components.py lines
99-107): pop the least-recently-used entry while the cache is non-empty
and over the count bound, over the memory bound, or its oldest entry has
expired. -/
def evictLoop (sz : String → Int) (now : ℚ) (valueSize : Int)
    (maxSize : Nat) (maxMemory : Int) (ttl : ℚ) :
    List (String × String × ℚ) → Int → List (String × String × ℚ) × Int
  | [], mem => ([], mem)
  | (k, v, ts) :: rest, mem =>
    if maxSize ≤ rest.length + 1 ∨ maxMemory < mem + valueSize ∨ ttl < now - ts then
      evictLoop sz now valueSize maxSize maxMemory ttl rest (mem - sz v)
    else ((k, v, ts) :: rest, mem)

/-- `ComponentCache.set` (components.py lines 83-114): a value larger
than `max_memory` is not cached at all; an existing entry for the key is
removed first (refunding its size); then the eviction loop runs and the
new entry is appended as most recent. -/
def ComponentCache.set (sz : String → Int) (now : ℚ) (key value : String)
    (c : ComponentCache) : ComponentCache :=
  let valueSize := sz value
  if c.maxMemory < valueSize then c
  else
    let c :=
      match popKey key c.cache with
      | (some (oldValue, _), rest) =>
        { c with cache := rest, currentMemory := c.currentMemory - sz oldValue }
      | (none, _) => c
    let (cache', mem') :=
      evictLoop sz now valueSize c.maxSize c.maxMemory c.ttl c.cache c.currentMemory
    { c with cache := cache' ++ [(key, value, now)], currentMemory := mem' + valueSize }

/-!
`EventDelegate` (events.py lines 160-186) and the `Component` lifecycle
(components.py lines 131-248).  A registered hook listener is an
arbitrary callable; it is modelled by its observable behaviour when
invoked: it either returns normally or raises with some message.  The
observable effect of running lifecycle operations is a log: one `invoked`
entry per listener call and one `loggedError` entry per
`logger.error(f"Error in event handler: …")` line executed inside
`EventDelegate.__call__`.
-/

inductive Handler where
  | ok
  | throws (msg : String)
deriving DecidableEq, Repr

inductive LogEntry where
  | invoked (hook : String) (idx : Nat)
  | loggedError (hook : String) (msg : String)
deriving DecidableEq, Repr

/-- The hook name an entry belongs to. -/
def LogEntry.hookOf : LogEntry → String
  | .invoked h _ => h
  | .loggedError h _ => h

/-- The log contributed by calling the single handler `p.2` (listed at
index `p.1`): it is invoked, and if it raises the error is logged. -/
def handlerLog (hook : String) (p : Nat × Handler) : List LogEntry :=
  match p.2 with
  | .ok => [.invoked hook p.1]
  | .throws m => [.invoked hook p.1, .loggedError hook m]

/-- `EventDelegate.__call__` (events.py lines 180-186): every handler in
the list is called in order inside its own `try`; a raising handler is
logged (`self._logger.error(...)`) and **swallowed** — the loop continues
and nothing propagates to the caller. -/
def delegateCall (hook : String) (handlers : List Handler) : List LogEntry :=
  handlers.enum.flatMap (handlerLog hook)

/-- A `Component` (components.py lines 131-165): the `_mounted` and
`_destroyed` flags, the lifecycle `EventDelegate`s that the claims
observe, and the child components. -/
inductive Comp where
  | mk (mounted destroyed : Bool)
       (onBeforeMount onMounted onBeforeUpdate onUpdated
        onBeforeDestroy onDestroyed onError : List Handler)
       (children : List Comp)

def Comp.mounted : Comp → Bool
  | .mk m _ _ _ _ _ _ _ _ _ => m

def Comp.destroyed : Comp → Bool
  | .mk _ d _ _ _ _ _ _ _ _ => d

def Comp.onBeforeMount : Comp → List Handler
  | .mk _ _ h _ _ _ _ _ _ _ => h

def Comp.onMounted : Comp → List Handler
  | .mk _ _ _ h _ _ _ _ _ _ => h

def Comp.children : Comp → List Comp
  | .mk _ _ _ _ _ _ _ _ _ cs => cs

/- `Component.mount` (components.py lines 212-223): guarded only by
`if not self._mounted` — the `_destroyed` flag is *not* consulted.  The
body fires `on_before_mount`, sets `_mounted = True`, mounts the
children, then fires `on_mounted`.  The surrounding `try`/`except` (which
would log and fire `on_error`) is unreachable in this model:
`EventDelegate.__call__` never raises (it swallows handler exceptions
internally) and child `mount` calls likewise never raise, so the body is
total and `on_error` is never fired by `mount`. -/
mutual
def Comp.mount : Comp → Comp × List LogEntry
  | .mk false d hbm hm hbu hu hbd hd he cs =>
    (.mk true d hbm hm hbu hu hbd hd he (mountList cs).1,
     delegateCall "on_before_mount" hbm ++ (mountList cs).2 ++
       delegateCall "on_mounted" hm)
  | .mk true d hbm hm hbu hu hbd hd he cs =>
    (.mk true d hbm hm hbu hu hbd hd he cs, [])
def mountList : List Comp → List Comp × List LogEntry
  | [] => ([], [])
  | c :: cs =>
    ((c.mount.1 :: (mountList cs).1), c.mount.2 ++ (mountList cs).2)
end

/- `Component.unmount` (components.py lines 225-237): guarded by
`if self._mounted and not self._destroyed`; fires `on_before_destroy`,
sets `_mounted = False` and `_destroyed = True`, unmounts the children,
then fires `on_destroyed`.  As for `mount`, the `except` branch is
unreachable. -/
mutual
def Comp.unmount : Comp → Comp × List LogEntry
  | .mk m d hbm hm hbu hu hbd hd he cs =>
    if m && !d then
      (.mk false true hbm hm hbu hu hbd hd he (unmountList cs).1,
       delegateCall "on_before_destroy" hbd ++ (unmountList cs).2 ++
         delegateCall "on_destroyed" hd)
    else
      (.mk m d hbm hm hbu hu hbd hd he cs, [])
def unmountList : List Comp → List Comp × List LogEntry
  | [] => ([], [])
  | c :: cs =>
    ((c.unmount.1 :: (unmountList cs).1), c.unmount.2 ++ (unmountList cs).2)
end

/-- `Component._update` (components.py lines 239-248): guarded by
`if self._mounted and not self._destroyed`; fires `on_before_update` and
`on_updated` and does not recurse into children. -/
def Comp.update (c : Comp) : Comp × List LogEntry :=
  match c with
  | .mk m d hbm hm hbu hu hbd hd he cs =>
    if m && !d then
      (.mk m d hbm hm hbu hu hbd hd he cs,
       delegateCall "on_before_update" hbu ++ delegateCall "on_updated" hu)
    else
      (.mk m d hbm hm hbu hu hbd hd he cs, [])

/-!
Concrete instances used by the statements below.
-/

def spanX : VNode := .mk "span" [] [.text "x"]
def spanY : VNode := .mk "span" [] [.text "y"]
def spanZ : VNode := .mk "span" [] [.text "z"]

/-- `div[children=[span["x"], span["y"]]]`. -/
def divXY : VNode := .mk "div" [] [.node spanX, .node spanY]

/-- `div[children=[span["x"], span["z"]]]`. -/
def divXZ : VNode := .mk "div" [] [.node spanX, .node spanZ]

/-- A constant stand-in for `sys.getsizeof`. -/
def sz50 : String → Int := fun _ => 50

/-- An empty cache configured with `max_size = 100`, a large memory bound
and `ttl = 1` second. -/
def ttlCache : ComponentCache := ⟨[], 100, 1000000, 1, 0⟩

/-- An empty cache configured with `max_size = 2`, a large memory bound
and the default `ttl = 300`. -/
def lruCache : ComponentCache := ⟨[], 2, 1000000, 300, 0⟩

/-- A freshly constructed component with one `on_mounted` listener and one
`on_error` listener. -/
def freshComp : Comp := .mk false false [] [.ok] [] [] [] [] [.ok] []

/-- `freshComp` after `mount()` then `unmount()`: `_mounted = False`,
`_destroyed = True`. -/
def destroyedComp : Comp := freshComp.mount.1.unmount.1

/-- A fresh component whose single `on_before_mount` listener raises
`"boom"`, with one `on_mounted` listener and one `on_error` listener. -/
def throwingComp : Comp := .mk false false [.throws "boom"] [.ok] [] [] [] [] [.ok] []

/-- A list render input whose second element is a component whose
`render()` raises `"boom"`; the first element is a `div` (resp. `span`)
node. -/
def failingUnderDiv : RNode :=
  .many [.child (.node (.mk "div" [] [])), .comp (.error "boom")]

def failingUnderSpan : RNode :=
  .many [.child (.node (.mk "span" [] [])), .comp (.error "boom")]

/-!
Theorems.
-/

/-- C1: the spec's end-to-end child-diff scenario. Diffing
`div[span["x"], span["y"]]` against `div[span["x"], span["z"]]` is
claimed to return exactly one `REPLACE_CHILD` patch at index 1; in fact
`VDOMDiffer._diff_children` hands the child lists to
`difflib.SequenceMatcher`, which hashes the children, and `VNode`
(defining `__eq__` but no `__hash__`) is unhashable — the call raises
`TypeError` instead of returning any patch list. -/
theorem c1_child_diff_raises_typeerror :
    diff (some divXY) (some divXZ) = .error "unhashable type: VNode" := by
  rfl

/-- C9: when the old node is `None`, `diff` returns exactly one `CREATE`
patch carrying the new argument unchanged — in particular
`diff(None, None)` is `[CREATE(None)]`, not the empty list. -/
theorem c9_diff_none_is_create :
    diff none none = .ok [Patch.create none] ∧
    ∀ newNode : Option VNode, diff none newNode = .ok [Patch.create newNode] := by
  exact ⟨rfl, fun _ => rfl⟩

/-- C8: rendering `img[props={src:"a.png"}]` yields exactly
`<img src="a.png"/>`; and for every `VNode` whose tag is in the fixed
void-element set, `create_element` emits `<tag …/>` with no closing tag,
ignoring any supplied children. -/
theorem c8_void_elements :
    createElement (.node (.mk "img" [("src", .str "a.png")] [])) = "<img src=\"a.png\"/>" ∧
    ∀ (tag : String) (props : List (String × PVal)) (children : List Child),
      voidElements.contains tag = true →
      createElement (.node (.mk tag props children)) = "<" ++ tag ++ propsToString props ++ "/>" := by
  refine ⟨rfl, fun tag props children h => ?_⟩
  have hmem : tag ∈ voidElements := by simpa using h
  simp [createElement, hmem]

/-- Witness for C8 at the void tag `img` with (incorrectly) supplied
children. -/
theorem c8_void_elements_witness :
    createElement (.node (.mk "img" [("src", .str "a.png")] [.text "kid"])) =
      "<" ++ "img" ++ propsToString [("src", .str "a.png")] ++ "/>" :=
  c8_void_elements.2 "img" [("src", .str "a.png")] [.text "kid"] (by decide)

/-- C6 counterexample: two renders whose failing component sits beside a
`div` node in one tree and beside a `span` node in the other produce the
*same* error, `Failed to render node: Failed to render node: boom` — the
wrapped error names neither tag, so it does not identify the failing
node's tag as the claim states. -/
theorem c6_render_error_has_no_tag :
    renderToString failingUnderDiv =
      .error "Failed to render node: Failed to render node: boom" ∧
    renderToString failingUnderSpan =
      .error "Failed to render node: Failed to render node: boom" := by
  exact ⟨rfl, rfl⟩

/-- C6 amended: any exception raised while rendering a child of a list
input aborts the entire `render_to_string` call and is re-raised to the
caller wrapped in the fixed message `Failed to render node: …` (one wrap
per enclosing frame), which does not identify the failing node's tag. -/
theorem c6_render_error_aborts :
    ∀ (pre post : List RNode) (m : String),
      (∀ x ∈ pre, ∃ s, renderToString x = .ok s) →
      renderToString (.many (pre ++ RNode.comp (.error m) :: post)) =
        .error ("Failed to render node: Failed to render node: " ++ m) := by
  intro pre post m h
  have key : renderList (pre ++ RNode.comp (.error m) :: post) =
      .error ("Failed to render node: " ++ m) := by
    induction pre with
    | nil => simp [renderList, renderToString]
    | cons x xs ih =>
      obtain ⟨s, hs⟩ := h x (by simp)
      have ih' := ih (fun y hy => h y (by simp [hy]))
      simp only [List.cons_append, renderList, hs, List.append_eq, ih']
  simp only [renderToString, key]
  rw [← String.append_assoc]
  rfl

/-- Witness for C6 amended: a list whose first element renders fine and
whose second element's `render()` raises `boom`. -/
theorem c6_render_error_aborts_witness :
    renderToString (.many ([.child (.text "a")] ++ RNode.comp (.error "boom") :: [])) =
      .error ("Failed to render node: Failed to render node: " ++ "boom") :=
  c6_render_error_aborts [.child (.text "a")] [] "boom" (by
    intro x hx
    simp only [List.mem_singleton] at hx
    subst hx
    exact ⟨"a", rfl⟩)

/-- C2 counterexample: a component that has been mounted and unmounted is
destroyed (`_destroyed = True`), yet calling `mount()` on it fires its
`on_mounted` lifecycle listener and sets `_mounted` back to `True` —
`mount` only checks `_mounted`, never `_destroyed`. -/
theorem c2_mount_on_destroyed_fires_hooks :
    destroyedComp.destroyed = true ∧
    destroyedComp.mount.2 = [.invoked "on_mounted" 0] ∧
    destroyedComp.mount.1.mounted = true := by
  exact ⟨rfl, rfl, rfl⟩

/-- C2 amended: the `_destroyed` flag itself is terminal — neither
`mount`, `unmount` nor `_update` ever clears it, and `unmount` and
`_update` on a destroyed component are exact no-ops — but `mount()` on a
destroyed component is *not* a no-op: since `_destroyed` implies
`_mounted = False`, `mount` runs its body, fires the mount hooks and sets
`_mounted = True` again (with `_destroyed` still `True`). -/
theorem c2_destroyed_flag_terminal (c : Comp) (h : c.destroyed = true) :
    c.mount.1.destroyed = true ∧
    c.unmount = (c, []) ∧
    c.update = (c, []) ∧
    (c.mounted = false → c.mount.1.mounted = true) := by
  obtain ⟨m, d, hbm, hm, hbu, hu, hbd, hd, he, cs⟩ := c
  have hd' : d = true := h
  subst hd'
  cases m <;>
    simp [Comp.mount, Comp.unmount, Comp.update, Comp.destroyed, Comp.mounted]

/-- Witness for C2 amended at the concrete destroyed component. -/
theorem c2_destroyed_flag_terminal_witness :
    destroyedComp.mount.1.destroyed = true ∧
    destroyedComp.unmount = (destroyedComp, []) ∧
    destroyedComp.update = (destroyedComp, []) ∧
    (destroyedComp.mounted = false → destroyedComp.mount.1.mounted = true) :=
  c2_destroyed_flag_terminal destroyedComp (by decide)

/-- Every log entry produced by a single handler call carries the hook
that invoked it. -/
theorem handlerLog_hookOf (hook : String) (p : Nat × Handler) :
    ∀ e ∈ handlerLog hook p, e.hookOf = hook := by
  obtain ⟨i, h⟩ := p
  intro e he
  cases h with
  | ok =>
    simp [handlerLog] at he
    subst he
    rfl
  | throws m =>
    simp [handlerLog] at he
    rcases he with he | he <;> subst he <;> rfl

/-- All entries of a delegate-call log (over any index offset) belong to
the calling hook. -/
theorem flatMap_handlerLog_hookOf (hook : String) :
    ∀ (hs : List Handler) (n : Nat) (e : LogEntry),
      e ∈ (hs.enumFrom n).flatMap (handlerLog hook) → e.hookOf = hook := by
  intro hs
  induction hs with
  | nil => intro n e he; simp [List.enumFrom] at he
  | cons h t ih =>
    intro n e he
    simp only [List.enumFrom, List.flatMap_cons, List.mem_append] at he
    rcases he with he | he
    · exact handlerLog_hookOf hook (n, h) e he
    · exact ih (n + 1) e he

theorem delegateCall_hookOf (hook : String) (hs : List Handler) :
    ∀ e ∈ delegateCall hook hs, e.hookOf = hook := by
  intro e he
  exact flatMap_handlerLog_hookOf hook hs 0 e (by simpa [delegateCall, List.enum] using he)

/-- Handler `i` of a delegate is invoked (at any index offset), whatever
the handlers before it did. -/
theorem invoked_mem_flatMap (hook : String) :
    ∀ (hs : List Handler) (n i : Nat), i < hs.length →
      LogEntry.invoked hook (n + i) ∈ (hs.enumFrom n).flatMap (handlerLog hook) := by
  intro hs
  induction hs with
  | nil => intro n i hi; simp at hi
  | cons h t ih =>
    intro n i hi
    simp only [List.enumFrom, List.flatMap_cons, List.mem_append]
    cases i with
    | zero =>
      exact Or.inl (by cases h <;> simp [handlerLog])
    | succ i' =>
      refine Or.inr ?_
      have heq : n + (i' + 1) = (n + 1) + i' := by omega
      rw [heq]
      exact ih (n + 1) i' (by simpa using hi)

/-- A raising handler's error message is logged (at any index offset). -/
theorem loggedError_mem_flatMap (hook : String) :
    ∀ (hs : List Handler) (n i : Nat) (m : String), hs[i]? = some (.throws m) →
      LogEntry.loggedError hook m ∈ (hs.enumFrom n).flatMap (handlerLog hook) := by
  intro hs
  induction hs with
  | nil => intro n i m hm; simp at hm
  | cons h t ih =>
    intro n i m hm
    simp only [List.enumFrom, List.flatMap_cons, List.mem_append]
    cases i with
    | zero =>
      simp at hm
      subst hm
      exact Or.inl (by simp [handlerLog])
    | succ i' =>
      exact Or.inr (ih (n + 1) i' m (by simpa using hm))

/- Every entry logged by `mount` belongs to `on_before_mount` or
`on_mounted` — in particular, never to `on_error`. -/
mutual
theorem mount_hookNames : ∀ (c : Comp) (e : LogEntry), e ∈ c.mount.2 →
    e.hookOf = "on_before_mount" ∨ e.hookOf = "on_mounted"
  | .mk false d hbm hm hbu hu hbd hd he cs => by
    intro e hmem
    simp only [Comp.mount, List.mem_append] at hmem
    rcases hmem with (hmem | hmem) | hmem
    · exact Or.inl (delegateCall_hookOf _ _ e hmem)
    · exact mountList_hookNames cs e hmem
    · exact Or.inr (delegateCall_hookOf _ _ e hmem)
  | .mk true d hbm hm hbu hu hbd hd he cs => by
    intro e hmem
    simp [Comp.mount] at hmem

/-- As `mount_hookNames`, for a list of children. -/
theorem mountList_hookNames : ∀ (cs : List Comp) (e : LogEntry), e ∈ (mountList cs).2 →
    e.hookOf = "on_before_mount" ∨ e.hookOf = "on_mounted"
  | [] => by intro e hmem; simp [mountList] at hmem
  | c :: cs => by
    intro e hmem
    simp only [mountList, List.mem_append] at hmem
    rcases hmem with hmem | hmem
    · exact mount_hookNames c e hmem
    · exact mountList_hookNames cs e hmem
end

/-- C5 counterexample: a component whose `on_before_mount` listener raises
`boom` — the error is logged and swallowed inside
`EventDelegate.__call__`, mounting continues (the `on_mounted` listener
still fires), and **no** `on_error` listener is ever invoked, so the
exception is *not* routed to the component's error hook as claimed. -/
theorem c5_listener_error_not_routed :
    throwingComp.mount.2 =
      [.invoked "on_before_mount" 0, .loggedError "on_before_mount" "boom",
       .invoked "on_mounted" 0] ∧
    throwingComp.mount.2.any (fun e => e.hookOf == "on_error") = false := by
  exact ⟨rfl, rfl⟩

/-- C5 amended: a listener exception is contained and logged at the
`EventDelegate` boundary, not routed to the component's error hook:
every listener of a hook is invoked even when earlier ones raise, each
raising listener's error is logged by the delegate, and `mount` never
produces any `on_error` activity (its log only ever belongs to
`on_before_mount` / `on_mounted`). -/
theorem c5_hook_errors_contained :
    (∀ (hook : String) (hs : List Handler) (i : Nat), i < hs.length →
      LogEntry.invoked hook i ∈ delegateCall hook hs) ∧
    (∀ (hook : String) (hs : List Handler) (i : Nat) (m : String),
      hs[i]? = some (.throws m) →
      LogEntry.loggedError hook m ∈ delegateCall hook hs) ∧
    (∀ (c : Comp) (e : LogEntry), e ∈ c.mount.2 → e.hookOf ≠ "on_error") := by
  refine ⟨?_, ?_, ?_⟩
  · intro hook hs i hi
    have h := invoked_mem_flatMap hook hs 0 i hi
    simpa [delegateCall, List.enum] using h
  · intro hook hs i m hm
    have h := loggedError_mem_flatMap hook hs 0 i m hm
    simpa [delegateCall, List.enum] using h
  · intro c e hmem
    rcases mount_hookNames c e hmem with h | h <;> rw [h] <;> decide

/-- Witness for C5 amended: the second listener still runs after a raising
first listener, the raised error is logged, and a concrete mount log entry
does not belong to `on_error`. -/
theorem c5_hook_errors_contained_witness :
    LogEntry.invoked "on_before_mount" 1 ∈
      delegateCall "on_before_mount" [.throws "boom", .ok] ∧
    LogEntry.loggedError "on_before_mount" "boom" ∈
      delegateCall "on_before_mount" [.throws "boom", .ok] ∧
    LogEntry.hookOf (.invoked "on_mounted" 0) ≠ "on_error" :=
  ⟨c5_hook_errors_contained.1 "on_before_mount" [.throws "boom", .ok] 1 (by decide),
   c5_hook_errors_contained.2.1 "on_before_mount" [.throws "boom", .ok] 0 "boom" (by decide),
   c5_hook_errors_contained.2.2 throwingComp (.invoked "on_mounted" 0) (by decide)⟩

/-- C3 counterexample: `ttl = 1`; `set(k, v)` at `t₀ = 0`, `get(k)` at
`t₀ + 1/2` (a hit, which rewrites the stored timestamp to `1/2`), then
`get(k)` at `t₀ + 3/2` still returns `v` — although `3/2 - 0 > ttl`, so
the claim (expiry measured from *insertion*, regardless of intervening
reads) demands absent. -/
theorem c3_ttl_refreshed_by_get :
    ((((ttlCache.set sz50 0 "k" "v").get sz50 (1/2 : ℚ) "k").2).get sz50 (3/2 : ℚ) "k").1
      = some "v" ∧
    (((ttlCache.set sz50 0 "k" "v").get sz50 (1/2 : ℚ) "k")).1 = some "v" ∧
    ((3 : ℚ)/2 - 0 > ttlCache.ttl) := by
  refine ⟨?_, ?_, ?_⟩ <;>
    norm_num [ComponentCache.get, ComponentCache.set, popKey, evictLoop, ttlCache, sz50]

/-- C3 amended: expiry is measured from the entry's **last refresh**, not
its insertion: for a cache holding a single entry `(k, v, ts)` (where `ts`
is the time of the insertion or of the last hit), `get(k)` at `now` with
`now - ts > ttl` purges the entry and returns absent; with
`now - ts ≤ ttl` it returns `v` and rewrites the stored timestamp to
`now`, so a further `get(k)` within `ttl` of `now` still returns `v`
however long ago the insertion was. -/
theorem c3_ttl_from_last_refresh (sz : String → Int) (k v : String) (ts now now2 : ℚ)
    (c : ComponentCache) (hc : c.cache = [(k, v, ts)]) :
    (c.ttl < now - ts →
      (c.get sz now k).1 = none ∧ ((c.get sz now k).2).cache = []) ∧
    (now - ts ≤ c.ttl →
      (c.get sz now k).1 = some v ∧ ((c.get sz now k).2).cache = [(k, v, now)]) ∧
    (now - ts ≤ c.ttl → now2 - now ≤ c.ttl →
      (((c.get sz now k).2).get sz now2 k).1 = some v) := by
  have hpop : popKey k c.cache = (some (v, ts), []) := by
    rw [hc]
    simp [popKey]
  refine ⟨fun hexp => ?_, fun hlive => ?_, fun hlive hlive2 => ?_⟩
  · rw [ComponentCache.get, hpop]
    simp only
    rw [if_pos hexp]
    exact ⟨rfl, rfl⟩
  · rw [ComponentCache.get, hpop]
    simp only
    rw [if_neg (by exact not_lt.mpr hlive)]
    exact ⟨rfl, by simp⟩
  · have hstate : (c.get sz now k).2 = { c with cache := [(k, v, now)] } := by
      rw [ComponentCache.get, hpop]
      simp only
      rw [if_neg (by exact not_lt.mpr hlive)]
      simp
    rw [hstate, ComponentCache.get]
    rw [show popKey k ({ c with cache := [(k, v, now)] } : ComponentCache).cache
        = (some (v, now), []) by simp [popKey]]
    simp only
    rw [if_neg (by exact not_lt.mpr hlive2)]

/-- Witness for C3 amended: `ttl = 1`, insertion at `0`, hit at `1/2`,
second hit at `3/2`. -/
theorem c3_ttl_from_last_refresh_witness :
    ((ComponentCache.mk [("k", "v", 0)] 100 1000000 1 0).get sz50 (1/2 : ℚ) "k").1
      = some "v" ∧
    ((((ComponentCache.mk [("k", "v", 0)] 100 1000000 1 0).get sz50 (1/2 : ℚ) "k").2).get
        sz50 (3/2 : ℚ) "k").1 = some "v" :=
  ⟨((c3_ttl_from_last_refresh sz50 "k" "v" 0 (1/2) (3/2) _ rfl).2.1 (by norm_num)).1,
   (c3_ttl_from_last_refresh sz50 "k" "v" 0 (1/2) (3/2) _ rfl).2.2 (by norm_num) (by norm_num)⟩

/-- In a props dict with distinct keys, looking up the key of a member
entry finds that entry's value. -/
theorem lookup_eq_of_mem_nodup :
    ∀ (ps : List (String × PVal)), keysNodup ps = true →
      ∀ p ∈ ps, ps.lookup p.1 = some p.2 := by
  intro ps
  induction ps with
  | nil => simp
  | cons q rest ih =>
    intro hnd p hp
    obtain ⟨k0, v0⟩ := q
    simp only [keysNodup, Bool.and_eq_true] at hnd
    rcases List.mem_cons.mp hp with rfl | hp'
    · simp [List.lookup]
    · have hrest := ih hnd.2 p hp'
      by_cases hk : p.1 == k0
      · have hk' : p.1 = k0 := by simpa using hk
        rw [hk'] at hrest
        rw [hrest] at hnd
        simp at hnd
      · simp only [List.lookup, hk]
        exact hrest

/-- A props dict with distinct keys is `dict.__eq__`-equal to itself. -/
theorem dictBEq_self (ps : List (String × PVal)) (h : keysNodup ps = true) :
    dictBEq ps ps = true := by
  simp only [dictBEq, Bool.and_eq_true, List.all_eq_true]
  constructor <;> intro p hp <;> simp [lookup_eq_of_mem_nodup ps h p hp]

/- `VNode.__eq__` is reflexive on well-formed trees (those whose props
dicts have distinct keys, i.e. all trees Python can build). -/
mutual
theorem vnodeBEq_self : ∀ (v : VNode), v.wf = true → vnodeBEq v v = true
  | .mk t ps cs => by
    intro h
    simp only [VNode.wf, Bool.and_eq_true] at h
    simp only [vnodeBEq, Bool.and_eq_true]
    exact ⟨⟨by simp, dictBEq_self ps h.1⟩, childListBEq_self cs h.2⟩
theorem childBEq_self : ∀ (c : Child), c.wf = true → childBEq c c = true
  | .node v => by
    intro h
    simp only [Child.wf] at h
    simp only [childBEq]
    exact vnodeBEq_self v h
  | .text s => by
    intro _
    simp [childBEq]
theorem childListBEq_self : ∀ (cs : List Child), childListWf cs = true → childListBEq cs cs = true
  | [] => by intro _; rfl
  | c :: cs => by
    intro h
    simp only [childListWf, Bool.and_eq_true] at h
    simp only [childListBEq, Bool.and_eq_true]
    exact ⟨childBEq_self c h.1, childListBEq_self cs h.2⟩
end

/-- C7: diffing any (well-formed) tree against itself yields the empty
patch list — `diff` first tests `old_node != new_node` with
`VNode.__eq__`, which is reflexive, so no patch is generated. -/
theorem c7_diff_self_empty (T : VNode) (h : T.wf = true) :
    diff (some T) (some T) = .ok [] := by
  simp [diff, vnodeBEq_self T h]

/-- Witness for C7 at `div[span["x"], span["y"]]`. -/
theorem c7_diff_self_empty_witness :
    diff (some divXY) (some divXY) = .ok [] :=
  c7_diff_self_empty divXY (by rfl)

/-- Lookup in an appended dict finds the first list's binding first. -/
theorem lookup_append_some (l1 l2 : List (String × PVal)) (k : String) (v : PVal)
    (h : l1.lookup k = some v) : (l1 ++ l2).lookup k = some v := by
  induction l1 with
  | nil => simp [List.lookup] at h
  | cons p rest ih =>
    obtain ⟨k0, v0⟩ := p
    by_cases hk : k == k0
    · simp only [List.lookup, hk] at h ⊢
      exact h
    · simp only [List.lookup, hk] at h ⊢
      exact ih h

theorem lookup_append_none (l1 l2 : List (String × PVal)) (k : String)
    (h : l1.lookup k = none) : (l1 ++ l2).lookup k = l2.lookup k := by
  induction l1 with
  | nil => simp
  | cons p rest ih =>
    obtain ⟨k0, v0⟩ := p
    by_cases hk : k == k0
    · simp only [List.lookup, hk] at h
      exact absurd h (by simp)
    · simp only [List.lookup, hk] at h ⊢
      exact ih h

/-- Filtering a nodup-keyed dict keeps a binding whose entry satisfies
the filter. -/
theorem lookup_filter_some (p : String × PVal → Bool) :
    ∀ (l : List (String × PVal)), keysNodup l = true → ∀ (k : String) (v : PVal),
      l.lookup k = some v → p (k, v) = true → (l.filter p).lookup k = some v := by
  intro l
  induction l with
  | nil => intro _ k v h _; simp [List.lookup] at h
  | cons q rest ih =>
    intro hnd k v h hp
    obtain ⟨k0, v0⟩ := q
    simp only [keysNodup, Bool.and_eq_true] at hnd
    by_cases hk : k == k0
    · simp only [List.lookup, hk] at h
      have hk' : k = k0 := by simpa using hk
      subst hk'
      obtain rfl : v0 = v := by simpa using h
      rw [List.filter_cons_of_pos (by simpa using hp)]
      simp [List.lookup]
    · simp only [List.lookup, hk] at h
      rcases hfilter : p (k0, v0) with _ | _
      · rw [List.filter_cons_of_neg (by simp [hfilter])]
        exact ih hnd.2 k v h hp
      · rw [List.filter_cons_of_pos (by simp [hfilter])]
        simp only [List.lookup, hk]
        exact ih hnd.2 k v h hp

/-- Filtering cannot create a binding for an absent key. -/
theorem lookup_filter_none (p : String × PVal → Bool) :
    ∀ (l : List (String × PVal)) (k : String),
      l.lookup k = none → (l.filter p).lookup k = none := by
  intro l
  induction l with
  | nil => intro k _; simp
  | cons q rest ih =>
    intro k h
    obtain ⟨k0, v0⟩ := q
    by_cases hk : k == k0
    · simp only [List.lookup, hk] at h
      exact absurd h (by simp)
    · simp only [List.lookup, hk] at h
      rcases hfilter : p (k0, v0) with _ | _
      · rw [List.filter_cons_of_neg (by simp [hfilter])]
        exact ih k h
      · rw [List.filter_cons_of_pos (by simp [hfilter])]
        simp only [List.lookup, hk]
        exact ih k h

/-- Mapping every value to the removal sentinel commutes with lookup. -/
theorem lookup_map_null :
    ∀ (l : List (String × PVal)) (k : String),
      ((l.map (fun p => (p.1, PVal.null))).lookup k) =
        (l.lookup k).map (fun _ => PVal.null) := by
  intro l
  induction l with
  | nil => intro k; simp
  | cons q rest ih =>
    intro k
    obtain ⟨k0, v0⟩ := q
    by_cases hk : k == k0
    · simp only [List.map, List.lookup, hk]
      rfl
    · simp only [List.map, List.lookup, hk]
      exact ih k

/-- C10: in a `PROPS` patch, a prop changed to `None` and a removed prop
are encoded identically — both make the patch bind the key to the removal
sentinel `None` — so the patch cannot distinguish setting a prop to null
from removing it.  (`old` and `new` are dicts, hence nodup keys.) -/
theorem c10_null_prop_same_as_removal (old new : List (String × PVal)) (k : String)
    (w : PVal) (hold : keysNodup old = true) (hnew : keysNodup new = true)
    (hw : old.lookup k = some w) (hwne : w ≠ PVal.null) :
    (new.lookup k = some PVal.null →
      (diffPropsPatch old new).lookup k = some PVal.null) ∧
    (new.lookup k = none →
      (diffPropsPatch old new).lookup k = some PVal.null) := by
  constructor
  · intro hknew
    unfold diffPropsPatch
    refine lookup_append_some _ _ k PVal.null
      (lookup_filter_some _ new hnew k PVal.null hknew ?_)
    simp only [hw]
    simpa using hwne
  · intro hknew
    unfold diffPropsPatch
    rw [lookup_append_none _ _ k (lookup_filter_none _ new k hknew)]
    rw [lookup_map_null]
    rw [lookup_filter_some _ old hold k w hw (by simp [hknew])]
    rfl

/-- Witness for C10: `old = {a: "1"}` against `new = {a: None}` (set to
null) and against `new = {}` (removed) both patch `a ↦ None`. -/
theorem c10_null_prop_same_as_removal_witness :
    (diffPropsPatch [("a", PVal.str "1")] [("a", PVal.null)]).lookup "a"
      = some PVal.null ∧
    (diffPropsPatch [("a", PVal.str "1")] []).lookup "a" = some PVal.null :=
  ⟨(c10_null_prop_same_as_removal [("a", PVal.str "1")] [("a", PVal.null)] "a"
      (PVal.str "1") (by decide) (by decide) (by decide) (by decide)).1 (by decide),
   (c10_null_prop_same_as_removal [("a", PVal.str "1")] [] "a"
      (PVal.str "1") (by decide) (by decide) (by decide) (by decide)).2 (by decide)⟩

/-- C4: LRU eviction.  Filling a `max_size = 2` cache with three distinct
keys in order (no reads in between, all within `ttl`, all fitting in
memory) evicts the least-recently-used key `k1`: afterwards `get(k1)` is
absent while `get(k2)` and `get(k3)` hit. -/
theorem c4_lru_eviction
    (sz : String → Int) (k1 k2 k3 v1 v2 v3 : String) (t1 t2 t3 t4 : ℚ)
    (maxMem : Int) (ttl : ℚ)
    (hk12 : k1 ≠ k2) (hk13 : k1 ≠ k3) (hk23 : k2 ≠ k3)
    (ht12 : t1 ≤ t2) (ht23 : t2 ≤ t3)
    (httl13 : t3 - t1 ≤ ttl) (httl24 : t4 - t2 ≤ ttl)
    (hsz1 : 0 ≤ sz v1) (hsz2 : 0 ≤ sz v2) (hsz3 : 0 ≤ sz v3)
    (hmem : sz v1 + sz v2 + sz v3 ≤ maxMem) :
    (((((ComponentCache.mk [] 2 maxMem ttl 0).set sz t1 k1 v1).set sz t2 k2 v2).set
        sz t3 k3 v3).get sz t4 k1).1 = none ∧
    ((((((ComponentCache.mk [] 2 maxMem ttl 0).set sz t1 k1 v1).set sz t2 k2 v2).set
        sz t3 k3 v3).get sz t4 k1).2.get sz t4 k2).1 = some v2 ∧
    (((((((ComponentCache.mk [] 2 maxMem ttl 0).set sz t1 k1 v1).set sz t2 k2 v2).set
        sz t3 k3 v3).get sz t4 k1).2.get sz t4 k2).2.get sz t4 k3).1 = some v3 := by
  have h1 : ¬(maxMem < sz v1) := by linarith
  have h2 : ¬(maxMem < sz v2) := by linarith
  have h3 : ¬(maxMem < sz v3) := by linarith
  have hB : ¬(maxMem < sz v1 + sz v2) := by linarith
  have hC : ¬(maxMem < sz v2 + sz v3) := by linarith
  have hT21 : ¬(ttl < t2 - t1) := by linarith
  have hT32 : ¬(ttl < t3 - t2) := by linarith
  have hT42 : ¬(ttl < t4 - t2) := by linarith
  have hT43 : ¬(ttl < t4 - t3) := by linarith
  have b12 : (k1 == k2) = false := beq_eq_false_iff_ne.mpr hk12
  have b13 : (k1 == k3) = false := beq_eq_false_iff_ne.mpr hk13
  have b23 : (k2 == k3) = false := beq_eq_false_iff_ne.mpr hk23
  have b21 : (k2 == k1) = false := beq_eq_false_iff_ne.mpr (Ne.symm hk12)
  have b31 : (k3 == k1) = false := beq_eq_false_iff_ne.mpr (Ne.symm hk13)
  have hs1 : (ComponentCache.mk [] 2 maxMem ttl 0).set sz t1 k1 v1 =
      ⟨[(k1, v1, t1)], 2, maxMem, ttl, sz v1⟩ := by
    simp [ComponentCache.set, popKey, evictLoop, h1]
  have hs2 : (ComponentCache.mk [(k1, v1, t1)] 2 maxMem ttl (sz v1)).set sz t2 k2 v2 =
      ⟨[(k1, v1, t1), (k2, v2, t2)], 2, maxMem, ttl, sz v1 + sz v2⟩ := by
    simp [ComponentCache.set, popKey, evictLoop, h2, hB, hT21, b12]
  have hs3 : (ComponentCache.mk [(k1, v1, t1), (k2, v2, t2)] 2 maxMem ttl
      (sz v1 + sz v2)).set sz t3 k3 v3 =
      ⟨[(k2, v2, t2), (k3, v3, t3)], 2, maxMem, ttl, sz v2 + sz v3⟩ := by
    simp [ComponentCache.set, popKey, evictLoop, h3, hC, hT32, b13, b23]
  have hg1 : (ComponentCache.mk [(k2, v2, t2), (k3, v3, t3)] 2 maxMem ttl
      (sz v2 + sz v3)).get sz t4 k1 =
      (none, ⟨[(k2, v2, t2), (k3, v3, t3)], 2, maxMem, ttl, sz v2 + sz v3⟩) := by
    simp [ComponentCache.get, popKey, b21, b31]
  have hg2 : (ComponentCache.mk [(k2, v2, t2), (k3, v3, t3)] 2 maxMem ttl
      (sz v2 + sz v3)).get sz t4 k2 =
      (some v2, ⟨[(k3, v3, t3), (k2, v2, t4)], 2, maxMem, ttl, sz v2 + sz v3⟩) := by
    simp [ComponentCache.get, popKey, hT42, b23]
  have hg3 : (ComponentCache.mk [(k3, v3, t3), (k2, v2, t4)] 2 maxMem ttl
      (sz v2 + sz v3)).get sz t4 k3 =
      (some v3, ⟨[(k2, v2, t4), (k3, v3, t4)], 2, maxMem, ttl, sz v2 + sz v3⟩) := by
    simp [ComponentCache.get, popKey, hT43, b23]
  rw [hs1, hs2, hs3, hg1]
  refine ⟨rfl, ?_, ?_⟩
  · rw [show ((none, ComponentCache.mk [(k2, v2, t2), (k3, v3, t3)] 2 maxMem ttl
        (sz v2 + sz v3)) : Option String × ComponentCache).2 =
        ComponentCache.mk [(k2, v2, t2), (k3, v3, t3)] 2 maxMem ttl (sz v2 + sz v3)
      from rfl, hg2]
  · rw [show ((none, ComponentCache.mk [(k2, v2, t2), (k3, v3, t3)] 2 maxMem ttl
        (sz v2 + sz v3)) : Option String × ComponentCache).2 =
        ComponentCache.mk [(k2, v2, t2), (k3, v3, t3)] 2 maxMem ttl (sz v2 + sz v3)
      from rfl, hg2]
    rw [show ((some v2, ComponentCache.mk [(k3, v3, t3), (k2, v2, t4)] 2 maxMem ttl
        (sz v2 + sz v3)) : Option String × ComponentCache).2 =
        ComponentCache.mk [(k3, v3, t3), (k2, v2, t4)] 2 maxMem ttl (sz v2 + sz v3)
      from rfl, hg3]

/-- Witness for C4: three 50-byte entries at times 0, 1, 2 in a
`max_size = 2`, `ttl = 300` cache, read back at time 3. -/
theorem c4_lru_eviction_witness :
    (((((ComponentCache.mk [] 2 1000000 300 0).set sz50 0 "k1" "v1").set sz50 1 "k2"
        "v2").set sz50 2 "k3" "v3").get sz50 3 "k1").1 = none ∧
    ((((((ComponentCache.mk [] 2 1000000 300 0).set sz50 0 "k1" "v1").set sz50 1 "k2"
        "v2").set sz50 2 "k3" "v3").get sz50 3 "k1").2.get sz50 3 "k2").1 = some "v2" ∧
    (((((((ComponentCache.mk [] 2 1000000 300 0).set sz50 0 "k1" "v1").set sz50 1 "k2"
        "v2").set sz50 2 "k3" "v3").get sz50 3 "k1").2.get sz50 3 "k2").2.get sz50 3
        "k3").1 = some "v3" :=
  c4_lru_eviction sz50 "k1" "k2" "k3" "v1" "v2" "v3" 0 1 2 3 1000000 300
    (by decide) (by decide) (by decide) (by norm_num) (by norm_num) (by norm_num)
    (by norm_num) (by norm_num [sz50]) (by norm_num [sz50]) (by norm_num [sz50])
    (by norm_num [sz50])

/-- Witness for C9 at a concrete non-null new node. -/
theorem c9_diff_none_is_create_witness :
    diff none (some spanZ) = .ok [Patch.create (some spanZ)] :=
  c9_diff_none_is_create.2 (some spanZ)
